import Mathlib

/-!
Shallow embedding of the mutation protocols of `aws-waf-temp-access`:

* `addIPToIPSet` / `removeIPFromIPSet` — the versioned (optimistic-lock)
  WAF IPSet grant/revoke loops (`src/index.js`, `src/cleanup.js`);
* `addIPToSecurityGroup` / `removeIPFromSecurityGroup` — the unversioned
  security-group grant/revoke loops.

Each AWS call is mediated by an environment oracle (`IPSetEnv` / `SGEnv`)
giving, per attempt, the result of the `GetIPSet` read, the
`UpdateIPSet` conditional write (or the single ingress-rule call), and the
value of `Math.random()`.  A run produces a trace of observable events
(reads, issued writes, sleeps, `core.saveState` calls) together with an
outcome (returned normally, rethrew a store error, or threw the
lock-exhausted error).
-/

namespace AwsWafTempAccess

/-- Result of one AWS SDK call: either a value, or a thrown error
identified by its `error.name` string. -/
inductive CallResult (α : Type) where
  | ok (value : α)
  | err (name : String)
deriving DecidableEq, Repr

/-- Observable events of a run. -/
inductive Ev where
  | readOk (entries : List String) (token : Nat)
  | readErr (name : String)
  | writeIssued (entries : List String) (token : Nat)
  | sgCall (groupId : String) (cidr : String) (descr : String)
  | sleep (ms : ℚ)
  | save (key : String) (val : String)
deriving DecidableEq, Repr

/-- Final outcome of one of the four loop functions. -/
inductive Outcome where
  | returned
  | rethrew (name : String)
  | lockExhausted
deriving DecidableEq, Repr

/-- Whether one loop iteration finished the call or continued to the next
attempt. -/
inductive StepRes where
  | done (out : Outcome)
  | next
deriving DecidableEq, Repr

/-- Environment for the versioned IPSet loops: per-attempt results of
`GetIPSet` (addresses plus `LockToken`) and `UpdateIPSet`, and the value
drawn by `Math.random()` in that attempt. -/
structure IPSetEnv where
  readRes : Nat → CallResult (List String × Nat)
  writeRes : Nat → CallResult Unit
  rand : Nat → ℚ

/-- Environment for the unversioned security-group loops: per-attempt
result of the single authorize/revoke ingress call. -/
structure SGEnv where
  callRes : Nat → CallResult Unit

/-- Identifiers of the WAF IPSet resource (plus the client region). -/
structure IPSetParams where
  id : String
  name : String
  scope : String
  region : String
deriving DecidableEq, Repr

def lockErrName : String := "WAFOptimisticLockException"

def duplicateErrName : String := "InvalidPermission.Duplicate"

def notFoundErrName : String := "InvalidPermission.NotFound"

/-- Normalization `const ipWithCidr = ipAddress.includes('/') ? ipAddress :
ipAddress + '/32'` — both grant mutators normalize this way.  The
`includes('/')` test is membership of the character `'/'` in the
string. -/
def normalizeCidr (ipAddress : String) : String :=
  if '/' ∈ ipAddress.data then ipAddress else ipAddress ++ "/32"

def baseDelay : ℚ := 1000

/-- Backoff `baseDelay * Math.pow(2, attempt) + Math.random() * 1000`
(versioned path, lock-conflict branch). -/
def jitteredDelay (env : IPSetEnv) (attempt : Nat) : ℚ :=
  baseDelay * 2 ^ attempt + env.rand attempt * 1000

/-- Backoff `baseDelay * Math.pow(2, attempt)` (unversioned path, and the
non-lock retry branch of the cleanup loop). -/
def plainDelay (attempt : Nat) : ℚ :=
  baseDelay * 2 ^ attempt

/-- The `for (let attempt = 0; attempt < maxRetries; attempt++)` loop:
`fuel` is the number of remaining iterations, the Bool handed to `step`
is `attempt === maxRetries - 1`.  Falling off the loop yields
`exhaustOut` with an empty remaining trace. -/
def runLoop (step : Nat → Bool → List Ev × StepRes) (exhaustOut : Outcome)
    (attempt fuel : Nat) : List Ev × Outcome :=
  match fuel with
  | 0 => ([], exhaustOut)
  | n + 1 =>
    match step attempt (n == 0) with
    | (seg, .done out) => (seg, out)
    | (seg, .next) =>
      let r := runLoop step exhaustOut (attempt + 1) n
      (seg ++ r.1, r.2)

/-- One iteration of `addIPToIPSet`'s loop body (src/index.js):
read the IPSet; if `ipWithCidr` is already present return; otherwise
issue a conditional write of `[...currentAddresses, ipWithCidr]` with the
read's `LockToken`; on success `saveState` the cleanup fields and return;
on `WAFOptimisticLockException` sleep the jittered backoff and continue;
on any other error rethrow. -/
def grantStep (env : IPSetEnv) (p : IPSetParams) (ipWithCidr : String)
    (attempt : Nat) (_isLast : Bool) : List Ev × StepRes :=
  match env.readRes attempt with
  | .ok (currentAddresses, lockToken) =>
    if ipWithCidr ∈ currentAddresses then
      ([.readOk currentAddresses lockToken], .done .returned)
    else
      let updatedAddresses := currentAddresses ++ [ipWithCidr]
      match env.writeRes attempt with
      | .ok _ =>
        ([.readOk currentAddresses lockToken,
          .writeIssued updatedAddresses lockToken,
          .save "runner-ip" ipWithCidr, .save "ipset-id" p.id,
          .save "ipset-name" p.name, .save "ipset-scope" p.scope,
          .save "aws-region" p.region], .done .returned)
      | .err name =>
        if name = lockErrName then
          ([.readOk currentAddresses lockToken,
            .writeIssued updatedAddresses lockToken,
            .sleep (jitteredDelay env attempt)], .next)
        else
          ([.readOk currentAddresses lockToken,
            .writeIssued updatedAddresses lockToken], .done (.rethrew name))
  | .err name =>
    if name = lockErrName then
      ([.readErr name, .sleep (jitteredDelay env attempt)], .next)
    else
      ([.readErr name], .done (.rethrew name))

/-- The grant loop `addIPToIPSet`: up to 10 attempts; exhausting them
throws the lock-conflict error. -/
def addIPToIPSet (env : IPSetEnv) (p : IPSetParams) (ipAddress : String) :
    List Ev × Outcome :=
  runLoop (grantStep env p (normalizeCidr ipAddress)) .lockExhausted 0 10

/-- One iteration of `removeIPFromIPSet`'s loop body (src/cleanup.js):
read the IPSet; if `ipAddress` is absent return; otherwise issue a
conditional write of `currentAddresses.filter(addr => addr !== ipAddress)`
with the read's `LockToken`; on `WAFOptimisticLockException` sleep the
jittered backoff and continue; on any other error log a warning and — on
the last attempt — return, otherwise sleep the plain backoff and
continue. -/
def removeStep (env : IPSetEnv) (ipAddress : String)
    (attempt : Nat) (isLast : Bool) : List Ev × StepRes :=
  match env.readRes attempt with
  | .ok (currentAddresses, lockToken) =>
    if ipAddress ∉ currentAddresses then
      ([.readOk currentAddresses lockToken], .done .returned)
    else
      let updatedAddresses := currentAddresses.filter (fun addr => addr != ipAddress)
      match env.writeRes attempt with
      | .ok _ =>
        ([.readOk currentAddresses lockToken,
          .writeIssued updatedAddresses lockToken], .done .returned)
      | .err name =>
        if name = lockErrName then
          ([.readOk currentAddresses lockToken,
            .writeIssued updatedAddresses lockToken,
            .sleep (jitteredDelay env attempt)], .next)
        else if isLast then
          ([.readOk currentAddresses lockToken,
            .writeIssued updatedAddresses lockToken], .done .returned)
        else
          ([.readOk currentAddresses lockToken,
            .writeIssued updatedAddresses lockToken,
            .sleep (plainDelay attempt)], .next)
  | .err name =>
    if name = lockErrName then
      ([.readErr name, .sleep (jitteredDelay env attempt)], .next)
    else if isLast then
      ([.readErr name], .done .returned)
    else
      ([.readErr name, .sleep (plainDelay attempt)], .next)

/-- The revoke loop `removeIPFromIPSet`: up to 10 attempts; falling off
the loop returns normally (cleanup never throws). -/
def removeIPFromIPSet (env : IPSetEnv) (_p : IPSetParams) (ipAddress : String) :
    List Ev × Outcome :=
  runLoop (removeStep env ipAddress) .returned 0 10

/-- One iteration of `addIPToSecurityGroup`'s loop body (src/index.js):
issue `AuthorizeSecurityGroupIngress`; on success `saveState` the cleanup
fields and return; on `InvalidPermission.Duplicate` return; on the last
attempt rethrow; otherwise sleep the plain backoff and continue. -/
def sgGrantStep (env : SGEnv) (groupId ipWithCidr description region : String)
    (attempt : Nat) (isLast : Bool) : List Ev × StepRes :=
  match env.callRes attempt with
  | .ok _ =>
    ([.sgCall groupId ipWithCidr description,
      .save "sg-runner-ip" ipWithCidr, .save "sg-group-id" groupId,
      .save "sg-description" description,
      .save "sg-aws-region" region], .done .returned)
  | .err name =>
    if name = duplicateErrName then
      ([.sgCall groupId ipWithCidr description], .done .returned)
    else if isLast then
      ([.sgCall groupId ipWithCidr description], .done (.rethrew name))
    else
      ([.sgCall groupId ipWithCidr description,
        .sleep (plainDelay attempt)], .next)

/-- The grant loop `addIPToSecurityGroup`: up to 5 attempts. -/
def addIPToSecurityGroup (env : SGEnv)
    (groupId ipAddress description region : String) : List Ev × Outcome :=
  runLoop (sgGrantStep env groupId (normalizeCidr ipAddress) description region)
    .returned 0 5

/-- One iteration of `removeIPFromSecurityGroup`'s loop body
(src/cleanup.js): issue `RevokeSecurityGroupIngress`; on success or
`InvalidPermission.NotFound` return; on the last attempt log a warning
and return; otherwise sleep the plain backoff and continue. -/
def sgRevokeStep (env : SGEnv) (groupId ipAddress description : String)
    (attempt : Nat) (isLast : Bool) : List Ev × StepRes :=
  match env.callRes attempt with
  | .ok _ =>
    ([.sgCall groupId ipAddress description], .done .returned)
  | .err name =>
    if name = notFoundErrName then
      ([.sgCall groupId ipAddress description], .done .returned)
    else if isLast then
      ([.sgCall groupId ipAddress description], .done .returned)
    else
      ([.sgCall groupId ipAddress description,
        .sleep (plainDelay attempt)], .next)

/-- The revoke loop `removeIPFromSecurityGroup`: up to 5 attempts; never
throws. -/
def removeIPFromSecurityGroup (env : SGEnv)
    (groupId ipAddress description : String) : List Ev × Outcome :=
  runLoop (sgRevokeStep env groupId ipAddress description) .returned 0 5

/-! ### Trace observations -/

def Ev.isReadB : Ev → Bool
  | .readOk _ _ => true
  | .readErr _ => true
  | _ => false

def Ev.isWriteB : Ev → Bool
  | .writeIssued _ _ => true
  | _ => false

def Ev.isSaveB : Ev → Bool
  | .save _ _ => true
  | _ => false

def Ev.isSgCallB : Ev → Bool
  | .sgCall _ _ _ => true
  | _ => false

/-- Number of read attempts (successful or failed) in a trace. -/
def readCount (tr : List Ev) : Nat := tr.countP Ev.isReadB

/-- Number of conditional writes issued in a trace. -/
def writeCount (tr : List Ev) : Nat := tr.countP Ev.isWriteB

/-- Number of `core.saveState` calls in a trace. -/
def saveCount (tr : List Ev) : Nat := tr.countP Ev.isSaveB

/-- Number of security-group ingress calls in a trace. -/
def sgCallCount (tr : List Ev) : Nat := tr.countP Ev.isSgCallB

/-- The sleeping delays of a trace, in order. -/
def sleepsOf (tr : List Ev) : List ℚ :=
  tr.filterMap fun e => match e with | .sleep d => some d | _ => none

/-- The address lists of the writes issued in a trace, in order. -/
def issuedWrites (tr : List Ev) : List (List String) :=
  tr.filterMap fun e => match e with | .writeIssued es _ => some es | _ => none

/-- The address list of the last write issued in a trace — the entry set
the resource holds after the final (successful) write. -/
def finalWrite (tr : List Ev) : Option (List String) :=
  (issuedWrites tr).getLast?

/-- Adjacency relation: if the second event is an issued conditional
write, the first is a successful read returning exactly the version token
the write presents, and the written list is derived from that read's
addresses by `f`. -/
def writePairedWithRead (f : List String → List String) (a b : Ev) : Prop :=
  ∀ es tok, b = Ev.writeIssued es tok → ∃ cs, a = Ev.readOk cs tok ∧ es = f cs

/-- Adjacency relation, token part only: every issued write presents the
token of the immediately preceding successful read. -/
def writeUsesPrecedingToken (a b : Ev) : Prop :=
  ∀ es tok, b = Ev.writeIssued es tok → ∃ cs, a = Ev.readOk cs tok

/-- Adjacency relation, entries part only: every issued write's list is
derived by `f` from the immediately preceding read's addresses. -/
def writeDerivedFromPreceding (f : List String → List String) (a b : Ev) : Prop :=
  ∀ es tok, b = Ev.writeIssued es tok → ∃ cs tok', a = Ev.readOk cs tok' ∧ es = f cs

/-- The first event of a trace is never an issued write (so every write
has an immediately preceding event). -/
def headNotWrite (tr : List Ev) : Prop :=
  ∀ e ∈ tr.head?, e.isWriteB = false

/-! ### Concrete sample environments -/

/-- Sample IPSet identifiers. -/
def demoParams : IPSetParams :=
  ⟨"ipset-id-1", "allowlist", "REGIONAL", "us-east-1"⟩

/-- Every read succeeds on an empty address list; every conditional
write is rejected with the optimistic-lock error. -/
def lockEnvGrant : IPSetEnv :=
  ⟨fun k => .ok ([], k), fun _ => .err lockErrName, fun _ => 0⟩

/-- Every read succeeds on a list holding the managed entry; every
conditional write is rejected with the optimistic-lock error. -/
def lockEnvRevoke : IPSetEnv :=
  ⟨fun k => .ok (["9.9.9.9/32"], k), fun _ => .err lockErrName, fun _ => 0⟩

/-- Every read succeeds on a list holding the managed entry; every
conditional write fails with a non-lock store error. -/
def nonLockEnvRevoke : IPSetEnv :=
  ⟨fun k => .ok (["203.0.113.5/32"], k), fun _ => .err "InternalFailure",
   fun _ => 0⟩

/-- Reads succeed on an empty list; a non-lock store error on the first
conditional write. -/
def nonLockEnvGrant : IPSetEnv :=
  ⟨fun k => .ok ([], k), fun _ => .err "InternalFailure", fun _ => 0⟩

/-- Reads succeed on an empty list; the conditional write is rejected
with the optimistic-lock error on attempts 0..2 (the spec's attempts
1..3) and succeeds from attempt 3 (the spec's attempt 4) on. -/
def conflictEnv : IPSetEnv :=
  ⟨fun k => .ok ([], k),
   fun k => if k < 3 then .err lockErrName else .ok (), fun _ => 1/2⟩

/-- Reads and writes always succeed, on an empty initial list. -/
def freshEnv : IPSetEnv := ⟨fun k => .ok ([], k), fun _ => .ok (), fun _ => 0⟩

/-- Reads always return the singleton list of the managed entry; writes
succeed. -/
def presentEnv : IPSetEnv :=
  ⟨fun k => .ok (["203.0.113.5/32"], k), fun _ => .ok (), fun _ => 0⟩

/-- The ingress call reports a duplicate rule. -/
def dupSGEnv : SGEnv := ⟨fun _ => .err duplicateErrName⟩

/-- The ingress call reports a missing rule. -/
def notFoundSGEnv : SGEnv := ⟨fun _ => .err notFoundErrName⟩

/-- The ingress call always fails with some other error. -/
def otherErrSGEnv : SGEnv := ⟨fun _ => .err "RequestLimitExceeded"⟩

/-- The ingress call succeeds. -/
def okSGEnv : SGEnv := ⟨fun _ => .ok ()⟩

/-! ### Generic lemmas about `runLoop` -/

lemma runLoop_succ_done {step : Nat → Bool → List Ev × StepRes} {ex : Outcome}
    {a n : Nat} {seg : List Ev} {out : Outcome}
    (h : step a (n == 0) = (seg, .done out)) :
    runLoop step ex a (n + 1) = (seg, out) := by
  unfold runLoop
  rw [h]

lemma runLoop_succ_next {step : Nat → Bool → List Ev × StepRes} {ex : Outcome}
    {a n : Nat} {seg : List Ev}
    (h : step a (n == 0) = (seg, .next)) :
    runLoop step ex a (n + 1) =
      (seg ++ (runLoop step ex (a + 1) n).1, (runLoop step ex (a + 1) n).2) := by
  conv_lhs => rw [runLoop]
  rw [h]

lemma sleepsOf_append (l l' : List Ev) :
    sleepsOf (l ++ l') = sleepsOf l ++ sleepsOf l' := by
  simp [sleepsOf]

/-- When every iteration continues to the next attempt, the loop runs for
all of its fuel, ends in `exhaustOut`, and the trace accumulates `fuel`
segments each contributing `c` events satisfying `q`. -/
lemma runLoop_all_retry_count (step : Nat → Bool → List Ev × StepRes)
    (ex : Outcome) (q : Ev → Bool) (c : Nat)
    (h : ∀ a b, ∃ seg, step a b = (seg, .next) ∧ seg.countP q = c) :
    ∀ fuel a, (runLoop step ex a fuel).2 = ex ∧
      (runLoop step ex a fuel).1.countP q = fuel * c := by
  intro fuel
  induction fuel with
  | zero => intro a; simp [runLoop]
  | succ n ih =>
    intro a
    obtain ⟨seg, hs, hc⟩ := h a (n == 0)
    rw [runLoop_succ_next hs]
    obtain ⟨ih1, ih2⟩ := ih (a + 1)
    refine ⟨ih1, ?_⟩
    simp only [List.countP_append, hc, ih2]
    ring

/-- When every non-final iteration continues and the final iteration
finishes with `out`, the loop ends in `out` after using all its fuel. -/
lemma runLoop_retry_until_last_count (step : Nat → Bool → List Ev × StepRes)
    (ex : Outcome) (q : Ev → Bool) (c cLast : Nat) (out : Outcome)
    (hn : ∀ a, ∃ seg, step a false = (seg, .next) ∧ seg.countP q = c)
    (hl : ∀ a, ∃ seg, step a true = (seg, .done out) ∧ seg.countP q = cLast) :
    ∀ fuel a, (runLoop step ex a (fuel + 1)).2 = out ∧
      (runLoop step ex a (fuel + 1)).1.countP q = fuel * c + cLast := by
  intro fuel
  induction fuel with
  | zero =>
    intro a
    obtain ⟨seg, hs, hc⟩ := hl a
    rw [runLoop_succ_done (by simpa using hs)]
    simpa using hc
  | succ n ih =>
    intro a
    obtain ⟨seg, hs, hc⟩ := hn a
    rw [runLoop_succ_next (by simpa using hs)]
    obtain ⟨ih1, ih2⟩ := ih (a + 1)
    refine ⟨ih1, ?_⟩
    simp only [List.countP_append, hc, ih2]
    ring

/-- When finishing segments contain no sleep and continuing segments
contain exactly one sleep — whose value satisfies `P` at the attempt
index — the `k`-th sleep of the whole trace satisfies `P` at attempt
`a + k`. -/
lemma runLoop_sleep_spec (step : Nat → Bool → List Ev × StepRes)
    (ex : Outcome) (P : Nat → ℚ → Prop)
    (hd : ∀ a b seg out, step a b = (seg, .done out) → sleepsOf seg = [])
    (hn : ∀ a b seg, step a b = (seg, .next) →
      ∃ v, sleepsOf seg = [v] ∧ P a v) :
    ∀ fuel a k, k < (sleepsOf (runLoop step ex a fuel).1).length →
      P (a + k) ((sleepsOf (runLoop step ex a fuel).1).getD k 0) := by
  intro fuel
  induction fuel with
  | zero => intro a k hk; simp [runLoop, sleepsOf] at hk
  | succ n ih =>
    intro a k hk
    rcases hstep : step a (n == 0) with ⟨seg, r⟩
    cases r with
    | done out =>
      rw [runLoop_succ_done hstep] at hk ⊢
      rw [hd a (n == 0) seg out hstep] at hk
      simp at hk
    | next =>
      rw [runLoop_succ_next hstep] at hk ⊢
      obtain ⟨v, hv, hPv⟩ := hn a (n == 0) seg hstep
      rw [sleepsOf_append, hv, List.singleton_append] at hk ⊢
      cases k with
      | zero => simpa using hPv
      | succ j =>
        have hk' : j < (sleepsOf (runLoop step ex (a + 1) n).1).length := by
          simpa using hk
        have hih := ih (a + 1) j hk'
        have harr : a + 1 + j = a + (j + 1) := by omega
        rw [harr] at hih
        simpa using hih

/-- Everything in the trace comes from some iteration's segment. -/
lemma runLoop_mem (step : Nat → Bool → List Ev × StepRes) (ex : Outcome)
    (Q : Ev → Prop)
    (h : ∀ a b e, e ∈ (step a b).1 → Q e) :
    ∀ fuel a e, e ∈ (runLoop step ex a fuel).1 → Q e := by
  intro fuel
  induction fuel with
  | zero => intro a e he; simp [runLoop] at he
  | succ n ih =>
    intro a e he
    rcases hstep : step a (n == 0) with ⟨seg, r⟩
    cases r with
    | done out =>
      rw [runLoop_succ_done hstep] at he
      exact h a (n == 0) e (by rw [hstep]; exact he)
    | next =>
      rw [runLoop_succ_next hstep] at he
      rcases List.mem_append.1 he with hseg | hrest
      · exact h a (n == 0) e (by rw [hstep]; exact hseg)
      · exact ih (a + 1) e hrest

/-- If every iteration's segment is a `Chain'` for `R`, starts with a
non-write event, and `R` holds vacuously toward non-write events, then
the whole trace is a `Chain'` for `R` starting with a non-write event. -/
lemma runLoop_chain (step : Nat → Bool → List Ev × StepRes) (ex : Outcome)
    (R : Ev → Ev → Prop)
    (hR : ∀ a b, b.isWriteB = false → R a b)
    (hseg : ∀ a b, List.Chain' R (step a b).1 ∧ headNotWrite (step a b).1) :
    ∀ fuel a, List.Chain' R (runLoop step ex a fuel).1 ∧
      headNotWrite (runLoop step ex a fuel).1 := by
  intro fuel
  induction fuel with
  | zero =>
    intro a
    constructor
    · simp [runLoop]
    · intro e he; simp [runLoop] at he
  | succ n ih =>
    intro a
    rcases hstep : step a (n == 0) with ⟨seg, r⟩
    have hseg' := hseg a (n == 0)
    rw [hstep] at hseg'
    cases r with
    | done out =>
      rw [runLoop_succ_done hstep]
      exact hseg'
    | next =>
      rw [runLoop_succ_next hstep]
      obtain ⟨ihc, ihh⟩ := ih (a + 1)
      constructor
      · refine List.Chain'.append hseg'.1 ihc ?_
        intro x _ y hy
        exact hR x y (ihh y hy)
      · intro e he
        cases seg with
        | nil =>
          rw [List.nil_append] at he
          exact ihh e he
        | cons x s =>
          simp only [List.cons_append, List.head?_cons, Option.mem_def,
            Option.some.injEq] at he
          rw [← he]
          exact hseg'.2 x (by simp)

/-! ### Shapes of the loop-body segments -/

lemma headNotWrite_cons {x : Ev} {l : List Ev} (hx : x.isWriteB = false) :
    headNotWrite (x :: l) := by
  intro e he
  simp only [List.head?_cons, Option.mem_def, Option.some.injEq] at he
  rw [← he]
  exact hx

lemma wpr_not_write {f : List String → List String} {a b : Ev}
    (hb : b.isWriteB = false) : writePairedWithRead f a b := by
  intro es tok hbe
  rw [hbe] at hb
  simp [Ev.isWriteB] at hb

lemma wpr_read_write (f : List String → List String) (cs : List String)
    (tok : Nat) :
    writePairedWithRead f (.readOk cs tok) (.writeIssued (f cs) tok) := by
  intro es tok' h
  injection h with h1 h2
  subst h1
  subst h2
  exact ⟨cs, rfl, rfl⟩

/-- The possible (segment, result) pairs of one `addIPToIPSet` iteration. -/
lemma grantStep_shape (env : IPSetEnv) (p : IPSetParams) (n : String)
    (a : Nat) (b : Bool) :
    (∃ cs tok, n ∈ cs ∧
      grantStep env p n a b = ([.readOk cs tok], .done .returned)) ∨
    (∃ cs tok, grantStep env p n a b =
      ([.readOk cs tok, .writeIssued (cs ++ [n]) tok,
        .save "runner-ip" n, .save "ipset-id" p.id, .save "ipset-name" p.name,
        .save "ipset-scope" p.scope, .save "aws-region" p.region],
       .done .returned)) ∨
    (∃ cs tok, grantStep env p n a b =
      ([.readOk cs tok, .writeIssued (cs ++ [n]) tok,
        .sleep (jitteredDelay env a)], .next)) ∨
    (∃ cs tok name, grantStep env p n a b =
      ([.readOk cs tok, .writeIssued (cs ++ [n]) tok],
       .done (.rethrew name))) ∨
    (grantStep env p n a b =
      ([.readErr lockErrName, .sleep (jitteredDelay env a)], .next)) ∨
    (∃ name, grantStep env p n a b = ([.readErr name], .done (.rethrew name))) := by
  rcases hr : env.readRes a with ⟨cs, tok⟩ | name
  · by_cases hm : n ∈ cs
    · exact Or.inl ⟨cs, tok, hm, by simp [grantStep, hr, hm]⟩
    · rcases hw : env.writeRes a with _ | wname
      · exact Or.inr (Or.inl ⟨cs, tok, by simp [grantStep, hr, hm, hw]⟩)
      · by_cases hl : wname = lockErrName
        · subst hl
          exact Or.inr (Or.inr (Or.inl ⟨cs, tok, by simp [grantStep, hr, hm, hw]⟩))
        · exact Or.inr (Or.inr (Or.inr (Or.inl
            ⟨cs, tok, wname, by simp [grantStep, hr, hm, hw, hl]⟩)))
  · by_cases hl : name = lockErrName
    · subst hl
      exact Or.inr (Or.inr (Or.inr (Or.inr (Or.inl (by simp [grantStep, hr])))))
    · exact Or.inr (Or.inr (Or.inr (Or.inr (Or.inr
        ⟨name, by simp [grantStep, hr, hl]⟩))))

/-- The possible (segment, result) pairs of one `removeIPFromIPSet`
iteration. -/
lemma removeStep_shape (env : IPSetEnv) (ip : String) (a : Nat) (b : Bool) :
    (∃ cs tok, ip ∉ cs ∧
      removeStep env ip a b = ([.readOk cs tok], .done .returned)) ∨
    (∃ cs tok, removeStep env ip a b =
      ([.readOk cs tok, .writeIssued (cs.filter (fun addr => addr != ip)) tok],
       .done .returned)) ∨
    (∃ cs tok, removeStep env ip a b =
      ([.readOk cs tok, .writeIssued (cs.filter (fun addr => addr != ip)) tok,
        .sleep (jitteredDelay env a)], .next)) ∨
    (∃ cs tok, removeStep env ip a b =
      ([.readOk cs tok, .writeIssued (cs.filter (fun addr => addr != ip)) tok,
        .sleep (plainDelay a)], .next)) ∨
    (removeStep env ip a b =
      ([.readErr lockErrName, .sleep (jitteredDelay env a)], .next)) ∨
    (∃ name, removeStep env ip a b =
      ([.readErr name, .sleep (plainDelay a)], .next)) ∨
    (∃ name, removeStep env ip a b = ([.readErr name], .done .returned)) := by
  rcases hr : env.readRes a with ⟨cs, tok⟩ | name
  · by_cases hm : ip ∈ cs
    · rcases hw : env.writeRes a with _ | wname
      · exact Or.inr (Or.inl ⟨cs, tok, by simp [removeStep, hr, hm, hw]⟩)
      · by_cases hl : wname = lockErrName
        · subst hl
          exact Or.inr (Or.inr (Or.inl ⟨cs, tok,
            by simp [removeStep, hr, hm, hw]⟩))
        · cases b with
          | true =>
            refine Or.inr (Or.inl ⟨cs, tok, ?_⟩)
            simp [removeStep, hr, hm, hw, hl]
          | false =>
            refine Or.inr (Or.inr (Or.inr (Or.inl ⟨cs, tok, ?_⟩)))
            simp [removeStep, hr, hm, hw, hl]
    · exact Or.inl ⟨cs, tok, hm, by simp [removeStep, hr, hm]⟩
  · by_cases hl : name = lockErrName
    · subst hl
      exact Or.inr (Or.inr (Or.inr (Or.inr (Or.inl (by simp [removeStep, hr])))))
    · cases b with
      | true =>
        refine Or.inr (Or.inr (Or.inr (Or.inr (Or.inr (Or.inr ⟨name, ?_⟩)))))
        simp [removeStep, hr, hl]
      | false =>
        refine Or.inr (Or.inr (Or.inr (Or.inr (Or.inr (Or.inl ⟨name, ?_⟩)))))
        simp [removeStep, hr, hl]

/-- The possible (segment, result) pairs of one `addIPToSecurityGroup`
iteration. -/
lemma sgGrantStep_shape (env : SGEnv) (g n d r : String) (a : Nat) (b : Bool) :
    (sgGrantStep env g n d r a b =
      ([.sgCall g n d, .save "sg-runner-ip" n, .save "sg-group-id" g,
        .save "sg-description" d, .save "sg-aws-region" r], .done .returned)) ∨
    (sgGrantStep env g n d r a b = ([.sgCall g n d], .done .returned)) ∨
    (∃ name, sgGrantStep env g n d r a b =
      ([.sgCall g n d], .done (.rethrew name))) ∨
    (sgGrantStep env g n d r a b =
      ([.sgCall g n d, .sleep (plainDelay a)], .next)) := by
  rcases hr : env.callRes a with _ | name
  · exact Or.inl (by simp [sgGrantStep, hr])
  · by_cases hd : name = duplicateErrName
    · exact Or.inr (Or.inl (by simp [sgGrantStep, hr, hd]))
    · cases b with
      | true =>
        exact Or.inr (Or.inr (Or.inl ⟨name, by simp [sgGrantStep, hr, hd]⟩))
      | false =>
        exact Or.inr (Or.inr (Or.inr (by simp [sgGrantStep, hr, hd])))

/-- The possible (segment, result) pairs of one
`removeIPFromSecurityGroup` iteration. -/
lemma sgRevokeStep_shape (env : SGEnv) (g ip d : String) (a : Nat) (b : Bool) :
    (sgRevokeStep env g ip d a b = ([.sgCall g ip d], .done .returned)) ∨
    (sgRevokeStep env g ip d a b =
      ([.sgCall g ip d, .sleep (plainDelay a)], .next)) := by
  rcases hr : env.callRes a with _ | name
  · exact Or.inl (by simp [sgRevokeStep, hr])
  · by_cases hd : name = notFoundErrName
    · exact Or.inl (by simp [sgRevokeStep, hr, hd])
    · cases b with
      | true => exact Or.inl (by simp [sgRevokeStep, hr, hd])
      | false => exact Or.inr (by simp [sgRevokeStep, hr, hd])

/-! ### Every issued write is paired with the read of its own attempt -/

lemma addIPToIPSet_chain (env : IPSetEnv) (p : IPSetParams) (ip : String) :
    List.Chain' (writePairedWithRead (fun cs => cs ++ [normalizeCidr ip]))
      (addIPToIPSet env p ip).1 ∧
    headNotWrite (addIPToIPSet env p ip).1 := by
  refine runLoop_chain _ _ _ (fun a b hb => wpr_not_write hb) ?_ 10 0
  intro a b
  rcases grantStep_shape env p (normalizeCidr ip) a b with
    ⟨cs, tok, _, h⟩ | ⟨cs, tok, h⟩ | ⟨cs, tok, h⟩ | ⟨cs, tok, name, h⟩ | h |
    ⟨name, h⟩ <;>
  rw [h] <;>
  refine ⟨?_, headNotWrite_cons rfl⟩ <;>
  simp only [List.chain'_cons, List.chain'_singleton, and_true] <;>
  first
    | trivial
    | exact wpr_read_write _ _ _
    | (and_intros <;> first
        | exact wpr_read_write _ _ _
        | exact wpr_not_write rfl)

lemma removeIPFromIPSet_chain (env : IPSetEnv) (p : IPSetParams) (ip : String) :
    List.Chain' (writePairedWithRead (fun cs => cs.filter (fun addr => addr != ip)))
      (removeIPFromIPSet env p ip).1 ∧
    headNotWrite (removeIPFromIPSet env p ip).1 := by
  refine runLoop_chain _ _ _ (fun a b hb => wpr_not_write hb) ?_ 10 0
  intro a b
  rcases removeStep_shape env ip a b with
    ⟨cs, tok, _, h⟩ | ⟨cs, tok, h⟩ | ⟨cs, tok, h⟩ | ⟨cs, tok, h⟩ | h |
    ⟨name, h⟩ | ⟨name, h⟩ <;>
  rw [h] <;>
  refine ⟨?_, headNotWrite_cons rfl⟩ <;>
  simp only [List.chain'_cons, List.chain'_singleton, and_true] <;>
  first
    | trivial
    | exact wpr_read_write _ _ _
    | (and_intros <;> first
        | exact wpr_read_write _ _ _
        | exact wpr_not_write rfl)

/-- C3: on the versioned path, no trace begins with a conditional write,
and whenever a conditional write is issued, the event immediately before
it is the successful read of that same attempt, returning exactly the
version token the write presents; hence every attempt re-fetches before
writing and no mutation presents a token from an earlier attempt. -/
theorem versioned_writes_use_fresh_token (env : IPSetEnv) (p : IPSetParams)
    (ip : String) :
    (headNotWrite (addIPToIPSet env p ip).1 ∧
      List.Chain' writeUsesPrecedingToken (addIPToIPSet env p ip).1) ∧
    (headNotWrite (removeIPFromIPSet env p ip).1 ∧
      List.Chain' writeUsesPrecedingToken (removeIPFromIPSet env p ip).1) := by
  obtain ⟨hc1, hh1⟩ := addIPToIPSet_chain env p ip
  obtain ⟨hc2, hh2⟩ := removeIPFromIPSet_chain env p ip
  refine ⟨⟨hh1, hc1.imp ?_⟩, ⟨hh2, hc2.imp ?_⟩⟩ <;>
  · intro a b hab es tok hbe
    obtain ⟨cs, hcs, _⟩ := hab es tok hbe
    exact ⟨cs, hcs⟩

/-- C10: frame property of the versioned mutations — every conditional
write issued by grant carries exactly the addresses of the immediately
preceding read with the normalized entry appended at the end, and every
conditional write issued by revoke carries exactly those addresses with
all exact-string occurrences of the entry filtered out (so revoke drops
every duplicate of the managed entry and keeps all other entries in
order). -/
theorem versioned_write_frame (env : IPSetEnv) (p : IPSetParams)
    (ip : String) :
    (headNotWrite (addIPToIPSet env p ip).1 ∧
      List.Chain'
        (writeDerivedFromPreceding (fun cs => cs ++ [normalizeCidr ip]))
        (addIPToIPSet env p ip).1) ∧
    (headNotWrite (removeIPFromIPSet env p ip).1 ∧
      List.Chain'
        (writeDerivedFromPreceding (fun cs => cs.filter (fun addr => addr != ip)))
        (removeIPFromIPSet env p ip).1) ∧
    (∀ cs : List String, (cs.filter (fun addr => addr != ip)).count ip = 0) := by
  obtain ⟨hc1, hh1⟩ := addIPToIPSet_chain env p ip
  obtain ⟨hc2, hh2⟩ := removeIPFromIPSet_chain env p ip
  refine ⟨⟨hh1, hc1.imp ?_⟩, ⟨hh2, hc2.imp ?_⟩, ?_⟩
  · intro a b hab es tok hbe
    obtain ⟨cs, hcs, hes⟩ := hab es tok hbe
    exact ⟨cs, tok, hcs, hes⟩
  · intro a b hab es tok hbe
    obtain ⟨cs, hcs, hes⟩ := hab es tok hbe
    exact ⟨cs, tok, hcs, hes⟩
  · intro cs
    refine List.count_eq_zero.2 ?_
    intro hmem
    have := List.of_mem_filter hmem
    simp at this

/-! ### Backoff shape -/

lemma jitteredDelay_bounds (env : IPSetEnv) (a : Nat)
    (h0 : 0 ≤ env.rand a) (h1 : env.rand a < 1) :
    baseDelay * 2 ^ a ≤ jitteredDelay env a ∧
      jitteredDelay env a < baseDelay * 2 ^ a + 1000 := by
  unfold jitteredDelay
  constructor
  · have : (0 : ℚ) ≤ env.rand a * 1000 := by positivity
    linarith
  · have : env.rand a * 1000 < 1000 := by nlinarith
    linarith

lemma plainDelay_bounds (a : Nat) :
    baseDelay * 2 ^ a ≤ plainDelay a ∧ plainDelay a < baseDelay * 2 ^ a + 1000 := by
  unfold plainDelay
  constructor
  · exact le_refl _
  · linarith

lemma grantStep_sleep_done (env : IPSetEnv) (p : IPSetParams) (n : String) :
    ∀ a b seg out, grantStep env p n a b = (seg, .done out) →
      sleepsOf seg = [] := by
  intro a b seg out h
  rcases grantStep_shape env p n a b with
    ⟨cs, tok, _, h'⟩ | ⟨cs, tok, h'⟩ | ⟨cs, tok, h'⟩ | ⟨cs, tok, name, h'⟩ | h' |
    ⟨name, h'⟩ <;>
  rw [h'] at h <;>
  injection h with h1 h2 <;>
  first
    | exact StepRes.noConfusion h2
    | (rw [← h1]; rfl)

lemma grantStep_sleep_next (env : IPSetEnv) (p : IPSetParams) (n : String)
    (hrand : ∀ k, 0 ≤ env.rand k ∧ env.rand k < 1) :
    ∀ a b seg, grantStep env p n a b = (seg, .next) →
      ∃ v, sleepsOf seg = [v] ∧
        baseDelay * 2 ^ a ≤ v ∧ v < baseDelay * 2 ^ a + 1000 := by
  intro a b seg h
  rcases grantStep_shape env p n a b with
    ⟨cs, tok, _, h'⟩ | ⟨cs, tok, h'⟩ | ⟨cs, tok, h'⟩ | ⟨cs, tok, name, h'⟩ | h' |
    ⟨name, h'⟩ <;>
  rw [h'] at h <;>
  injection h with h1 h2 <;>
  first
    | exact StepRes.noConfusion h2
    | exact ⟨jitteredDelay env a, by rw [← h1]; rfl,
        jitteredDelay_bounds env a (hrand a).1 (hrand a).2⟩

lemma removeStep_sleep_done (env : IPSetEnv) (ip : String) :
    ∀ a b seg out, removeStep env ip a b = (seg, .done out) →
      sleepsOf seg = [] := by
  intro a b seg out h
  rcases removeStep_shape env ip a b with
    ⟨cs, tok, _, h'⟩ | ⟨cs, tok, h'⟩ | ⟨cs, tok, h'⟩ | ⟨cs, tok, h'⟩ | h' |
    ⟨name, h'⟩ | ⟨name, h'⟩ <;>
  rw [h'] at h <;>
  injection h with h1 h2 <;>
  first
    | exact StepRes.noConfusion h2
    | (rw [← h1]; rfl)

lemma removeStep_sleep_next (env : IPSetEnv) (ip : String)
    (hrand : ∀ k, 0 ≤ env.rand k ∧ env.rand k < 1) :
    ∀ a b seg, removeStep env ip a b = (seg, .next) →
      ∃ v, sleepsOf seg = [v] ∧
        baseDelay * 2 ^ a ≤ v ∧ v < baseDelay * 2 ^ a + 1000 := by
  intro a b seg h
  rcases removeStep_shape env ip a b with
    ⟨cs, tok, _, h'⟩ | ⟨cs, tok, h'⟩ | ⟨cs, tok, h'⟩ | ⟨cs, tok, h'⟩ | h' |
    ⟨name, h'⟩ | ⟨name, h'⟩ <;>
  rw [h'] at h <;>
  injection h with h1 h2 <;>
  first
    | exact StepRes.noConfusion h2
    | exact ⟨jitteredDelay env a, by rw [← h1]; rfl,
        jitteredDelay_bounds env a (hrand a).1 (hrand a).2⟩
    | exact ⟨plainDelay a, by rw [← h1]; rfl, plainDelay_bounds a⟩

lemma sgGrantStep_sleep_done (env : SGEnv) (g n d r : String) :
    ∀ a b seg out, sgGrantStep env g n d r a b = (seg, .done out) →
      sleepsOf seg = [] := by
  intro a b seg out h
  rcases sgGrantStep_shape env g n d r a b with h' | h' | ⟨name, h'⟩ | h' <;>
  rw [h'] at h <;>
  injection h with h1 h2 <;>
  first
    | exact StepRes.noConfusion h2
    | (rw [← h1]; rfl)

lemma sgGrantStep_sleep_next (env : SGEnv) (g n d r : String) :
    ∀ a b seg, sgGrantStep env g n d r a b = (seg, .next) →
      ∃ v, sleepsOf seg = [v] ∧ v = baseDelay * 2 ^ a := by
  intro a b seg h
  rcases sgGrantStep_shape env g n d r a b with h' | h' | ⟨name, h'⟩ | h' <;>
  rw [h'] at h <;>
  injection h with h1 h2 <;>
  first
    | exact StepRes.noConfusion h2
    | exact ⟨plainDelay a, by rw [← h1]; rfl, rfl⟩

lemma sgRevokeStep_sleep_done (env : SGEnv) (g ip d : String) :
    ∀ a b seg out, sgRevokeStep env g ip d a b = (seg, .done out) →
      sleepsOf seg = [] := by
  intro a b seg out h
  rcases sgRevokeStep_shape env g ip d a b with h' | h' <;>
  rw [h'] at h <;>
  injection h with h1 h2 <;>
  first
    | exact StepRes.noConfusion h2
    | (rw [← h1]; rfl)

lemma sgRevokeStep_sleep_next (env : SGEnv) (g ip d : String) :
    ∀ a b seg, sgRevokeStep env g ip d a b = (seg, .next) →
      ∃ v, sleepsOf seg = [v] ∧ v = baseDelay * 2 ^ a := by
  intro a b seg h
  rcases sgRevokeStep_shape env g ip d a b with h' | h' <;>
  rw [h'] at h <;>
  injection h with h1 h2 <;>
  first
    | exact StepRes.noConfusion h2
    | exact ⟨plainDelay a, by rw [← h1]; rfl, rfl⟩

/-- C5: backoff shape.  On the versioned path (grant and revoke) the
`k`-th sleeping delay of a run — the backoff computed with exponent `k`
after attempt `k` fails, slept before attempt `k+1` — lies in
`[1000·2^k, 1000·2^k + 1000)` milliseconds, jitter being a uniform draw
below 1000 ms; on the unversioned path it is exactly `1000·2^k`
milliseconds with no jitter. -/
theorem backoff_shape :
    (∀ (env : IPSetEnv) (p : IPSetParams) (ip : String),
      (∀ j, 0 ≤ env.rand j ∧ env.rand j < 1) →
      (∀ k, k < (sleepsOf (addIPToIPSet env p ip).1).length →
        (1000 : ℚ) * 2 ^ k ≤ (sleepsOf (addIPToIPSet env p ip).1).getD k 0 ∧
        (sleepsOf (addIPToIPSet env p ip).1).getD k 0 < 1000 * 2 ^ k + 1000) ∧
      (∀ k, k < (sleepsOf (removeIPFromIPSet env p ip).1).length →
        (1000 : ℚ) * 2 ^ k ≤ (sleepsOf (removeIPFromIPSet env p ip).1).getD k 0 ∧
        (sleepsOf (removeIPFromIPSet env p ip).1).getD k 0 < 1000 * 2 ^ k + 1000)) ∧
    (∀ (env : SGEnv) (g ip d r : String),
      (∀ k, k < (sleepsOf (addIPToSecurityGroup env g ip d r).1).length →
        (sleepsOf (addIPToSecurityGroup env g ip d r).1).getD k 0 =
          (1000 : ℚ) * 2 ^ k) ∧
      (∀ k, k < (sleepsOf (removeIPFromSecurityGroup env g ip d).1).length →
        (sleepsOf (removeIPFromSecurityGroup env g ip d).1).getD k 0 =
          (1000 : ℚ) * 2 ^ k)) := by
  constructor
  · intro env p ip hrand
    constructor
    · intro k hk
      have := runLoop_sleep_spec (grantStep env p (normalizeCidr ip))
        .lockExhausted
        (fun a v => baseDelay * 2 ^ a ≤ v ∧ v < baseDelay * 2 ^ a + 1000)
        (grantStep_sleep_done env p (normalizeCidr ip))
        (grantStep_sleep_next env p (normalizeCidr ip) hrand) 10 0 k hk
      simpa [baseDelay] using this
    · intro k hk
      have := runLoop_sleep_spec (removeStep env ip) .returned
        (fun a v => baseDelay * 2 ^ a ≤ v ∧ v < baseDelay * 2 ^ a + 1000)
        (removeStep_sleep_done env ip)
        (removeStep_sleep_next env ip hrand) 10 0 k hk
      simpa [baseDelay] using this
  · intro env g ip d r
    constructor
    · intro k hk
      have := runLoop_sleep_spec
        (sgGrantStep env g (normalizeCidr ip) d r) .returned
        (fun a v => v = baseDelay * 2 ^ a)
        (sgGrantStep_sleep_done env g (normalizeCidr ip) d r)
        (sgGrantStep_sleep_next env g (normalizeCidr ip) d r) 5 0 k hk
      simpa [baseDelay] using this
    · intro k hk
      have := runLoop_sleep_spec (sgRevokeStep env g ip d) .returned
        (fun a v => v = baseDelay * 2 ^ a)
        (sgRevokeStep_sleep_done env g ip d)
        (sgRevokeStep_sleep_next env g ip d) 5 0 k hk
      simpa [baseDelay] using this

theorem backoff_shape_witness :
    ((1000 : ℚ) * 2 ^ 0 ≤
       (sleepsOf (addIPToIPSet lockEnvGrant demoParams "1.2.3.4").1).getD 0 0 ∧
     (sleepsOf (addIPToIPSet lockEnvGrant demoParams "1.2.3.4").1).getD 0 0 <
       1000 * 2 ^ 0 + 1000) ∧
    (sleepsOf (addIPToSecurityGroup otherErrSGEnv "sg-1" "1.2.3.4" "descr"
      "us-east-1").1).getD 1 0 = (1000 : ℚ) * 2 ^ 1 :=
  ⟨(backoff_shape.1 lockEnvGrant demoParams "1.2.3.4"
      (fun j => by norm_num [lockEnvGrant])).1 0 (by decide),
   (backoff_shape.2 otherErrSGEnv "sg-1" "1.2.3.4" "descr" "us-east-1").1 1
     (by decide)⟩

/-! ### Retry exhaustion and fail-fast behaviour -/

/-- C2: when every conditional write is rejected with the stale-token
(optimistic-lock) error, `addIPToIPSet` performs exactly 10 read and 10
write attempts and then throws the lock-exhausted error, while
`removeIPFromIPSet` under the same condition performs its 10 read and
write attempts and returns normally without raising. -/
theorem retry_exhaustion
    (env env' : IPSetEnv) (p p' : IPSetParams) (ip ip' : String)
    (s s' : Nat → List String) (t t' : Nat → Nat)
    (hr : ∀ k, env.readRes k = .ok (s k, t k))
    (hm : ∀ k, normalizeCidr ip ∉ s k)
    (hw : ∀ k, env.writeRes k = .err lockErrName)
    (hr' : ∀ k, env'.readRes k = .ok (s' k, t' k))
    (hm' : ∀ k, ip' ∈ s' k)
    (hw' : ∀ k, env'.writeRes k = .err lockErrName) :
    (addIPToIPSet env p ip).2 = .lockExhausted ∧
    readCount (addIPToIPSet env p ip).1 = 10 ∧
    writeCount (addIPToIPSet env p ip).1 = 10 ∧
    (removeIPFromIPSet env' p' ip').2 = .returned ∧
    readCount (removeIPFromIPSet env' p' ip').1 = 10 ∧
    writeCount (removeIPFromIPSet env' p' ip').1 = 10 := by
  have hstep : ∀ a b, grantStep env p (normalizeCidr ip) a b =
      ([.readOk (s a) (t a),
        .writeIssued (s a ++ [normalizeCidr ip]) (t a),
        .sleep (jitteredDelay env a)], .next) := by
    intro a b
    simp [grantStep, hr a, hm a, hw a]
  have hstep' : ∀ a b, removeStep env' ip' a b =
      ([.readOk (s' a) (t' a),
        .writeIssued ((s' a).filter (fun addr => addr != ip')) (t' a),
        .sleep (jitteredDelay env' a)], .next) := by
    intro a b
    simp [removeStep, hr' a, hm' a, hw' a]
  obtain ⟨o1, c1⟩ := runLoop_all_retry_count
    (grantStep env p (normalizeCidr ip)) .lockExhausted Ev.isReadB 1
    (fun a b => ⟨_, hstep a b, rfl⟩) 10 0
  obtain ⟨_, c2⟩ := runLoop_all_retry_count
    (grantStep env p (normalizeCidr ip)) .lockExhausted Ev.isWriteB 1
    (fun a b => ⟨_, hstep a b, rfl⟩) 10 0
  obtain ⟨o2, c3⟩ := runLoop_all_retry_count
    (removeStep env' ip') .returned Ev.isReadB 1
    (fun a b => ⟨_, hstep' a b, rfl⟩) 10 0
  obtain ⟨_, c4⟩ := runLoop_all_retry_count
    (removeStep env' ip') .returned Ev.isWriteB 1
    (fun a b => ⟨_, hstep' a b, rfl⟩) 10 0
  exact ⟨o1, by simpa using c1, by simpa using c2, o2,
    by simpa using c3, by simpa using c4⟩

theorem retry_exhaustion_witness :
    (addIPToIPSet lockEnvGrant demoParams "1.2.3.4").2 = .lockExhausted ∧
    readCount (addIPToIPSet lockEnvGrant demoParams "1.2.3.4").1 = 10 ∧
    writeCount (addIPToIPSet lockEnvGrant demoParams "1.2.3.4").1 = 10 ∧
    (removeIPFromIPSet lockEnvRevoke demoParams "9.9.9.9/32").2 = .returned ∧
    readCount (removeIPFromIPSet lockEnvRevoke demoParams "9.9.9.9/32").1 = 10 ∧
    writeCount (removeIPFromIPSet lockEnvRevoke demoParams "9.9.9.9/32").1 = 10 :=
  retry_exhaustion lockEnvGrant lockEnvRevoke demoParams demoParams
    "1.2.3.4" "9.9.9.9/32" (fun _ => []) (fun _ => ["9.9.9.9/32"])
    (fun k => k) (fun k => k)
    (fun _ => rfl) (fun _ => List.not_mem_nil _) (fun _ => rfl)
    (fun _ => rfl) (fun _ => List.mem_singleton_self _) (fun _ => rfl)

/-- C4 counterexample: the claim says a non-lock store error aborts the
versioned revoke with attempt count 1; but with every conditional write
failing with the non-lock error "InternalFailure",
`removeIPFromIPSet` performs all 10 read attempts (and 10 writes) and
returns normally — the non-lock error is retried, not fail-fast. -/
theorem nonlock_failfast_cex :
    readCount (removeIPFromIPSet nonLockEnvRevoke demoParams "203.0.113.5/32").1 = 10 ∧
    writeCount (removeIPFromIPSet nonLockEnvRevoke demoParams "203.0.113.5/32").1 = 10 ∧
    (removeIPFromIPSet nonLockEnvRevoke demoParams "203.0.113.5/32").2 = .returned := by
  decide

/-- C4 (amended): on the versioned path, a non-lock store error on the
first write makes `addIPToIPSet` abort immediately — it rethrows the
error after exactly one read and one write attempt; `removeIPFromIPSet`,
however, retries non-lock errors with plain exponential backoff through
its full 10-attempt budget and then returns normally without raising. -/
theorem nonlock_error_handling
    (env env' : IPSetEnv) (p p' : IPSetParams) (ip ip' : String)
    (s : List String) (tok : Nat) (name : String)
    (s' : Nat → List String) (t' : Nat → Nat) (name' : String)
    (hr : env.readRes 0 = .ok (s, tok))
    (hm : normalizeCidr ip ∉ s)
    (hw : env.writeRes 0 = .err name)
    (hname : name ≠ lockErrName)
    (hr' : ∀ k, env'.readRes k = .ok (s' k, t' k))
    (hm' : ∀ k, ip' ∈ s' k)
    (hw' : ∀ k, env'.writeRes k = .err name')
    (hname' : name' ≠ lockErrName) :
    (addIPToIPSet env p ip).2 = .rethrew name ∧
    readCount (addIPToIPSet env p ip).1 = 1 ∧
    writeCount (addIPToIPSet env p ip).1 = 1 ∧
    (removeIPFromIPSet env' p' ip').2 = .returned ∧
    readCount (removeIPFromIPSet env' p' ip').1 = 10 ∧
    writeCount (removeIPFromIPSet env' p' ip').1 = 10 := by
  have hstep : grantStep env p (normalizeCidr ip) 0 (9 == 0) =
      ([.readOk s tok, .writeIssued (s ++ [normalizeCidr ip]) tok],
       .done (.rethrew name)) := by
    simp [grantStep, hr, hm, hw, hname]
  have hg : addIPToIPSet env p ip =
      ([.readOk s tok, .writeIssued (s ++ [normalizeCidr ip]) tok],
       .rethrew name) := by
    show runLoop (grantStep env p (normalizeCidr ip)) .lockExhausted 0 (9 + 1) = _
    rw [runLoop_succ_done hstep]
  have hsn : ∀ a, removeStep env' ip' a false =
      ([.readOk (s' a) (t' a),
        .writeIssued ((s' a).filter (fun addr => addr != ip')) (t' a),
        .sleep (plainDelay a)], .next) := by
    intro a
    simp [removeStep, hr' a, hm' a, hw' a, hname']
  have hsl : ∀ a, removeStep env' ip' a true =
      ([.readOk (s' a) (t' a),
        .writeIssued ((s' a).filter (fun addr => addr != ip')) (t' a)],
       .done .returned) := by
    intro a
    simp [removeStep, hr' a, hm' a, hw' a, hname']
  have hn : ∀ a, ∃ seg, removeStep env' ip' a false = (seg, .next) ∧
      seg.countP Ev.isReadB = 1 := fun a => ⟨_, hsn a, rfl⟩
  have hnw : ∀ a, ∃ seg, removeStep env' ip' a false = (seg, .next) ∧
      seg.countP Ev.isWriteB = 1 := fun a => ⟨_, hsn a, rfl⟩
  have hl : ∀ a, ∃ seg, removeStep env' ip' a true = (seg, .done .returned) ∧
      seg.countP Ev.isReadB = 1 := fun a => ⟨_, hsl a, rfl⟩
  have hlw : ∀ a, ∃ seg, removeStep env' ip' a true = (seg, .done .returned) ∧
      seg.countP Ev.isWriteB = 1 := fun a => ⟨_, hsl a, rfl⟩
  obtain ⟨o2, c3⟩ := runLoop_retry_until_last_count (removeStep env' ip')
    .returned Ev.isReadB 1 1 .returned hn hl 9 0
  obtain ⟨_, c4⟩ := runLoop_retry_until_last_count (removeStep env' ip')
    .returned Ev.isWriteB 1 1 .returned hnw hlw 9 0
  refine ⟨?_, ?_, ?_, o2, by simpa using c3, by simpa using c4⟩
  · rw [hg]
  · rw [hg]; rfl
  · rw [hg]; rfl

theorem nonlock_error_handling_witness :
    (addIPToIPSet nonLockEnvGrant demoParams "1.2.3.4").2 =
      .rethrew "InternalFailure" ∧
    readCount (addIPToIPSet nonLockEnvGrant demoParams "1.2.3.4").1 = 1 ∧
    writeCount (addIPToIPSet nonLockEnvGrant demoParams "1.2.3.4").1 = 1 ∧
    (removeIPFromIPSet nonLockEnvRevoke demoParams "203.0.113.5/32").2 =
      .returned ∧
    readCount (removeIPFromIPSet nonLockEnvRevoke demoParams "203.0.113.5/32").1 = 10 ∧
    writeCount (removeIPFromIPSet nonLockEnvRevoke demoParams "203.0.113.5/32").1 = 10 :=
  nonlock_error_handling nonLockEnvGrant nonLockEnvRevoke demoParams demoParams
    "1.2.3.4" "203.0.113.5/32" [] 0 "InternalFailure"
    (fun _ => ["203.0.113.5/32"]) (fun k => k) "InternalFailure"
    rfl (List.not_mem_nil _) rfl (by decide)
    (fun _ => rfl) (fun _ => List.mem_singleton_self _) (fun _ => rfl) (by decide)

/-- C7: unversioned-path contract.  `addIPToSecurityGroup` on a store
reporting a duplicate rule on the first attempt returns success after
exactly one call; on any other persistent error it makes 5 call attempts
and propagates the final failure.  `removeIPFromSecurityGroup` on a
not-found error returns success after one call, and on any other
persistent error makes its 5 attempts and returns without raising. -/
theorem unversioned_retry_contract :
    (∀ (env : SGEnv) (g ip d r : String),
      env.callRes 0 = .err duplicateErrName →
      (addIPToSecurityGroup env g ip d r).2 = .returned ∧
      sgCallCount (addIPToSecurityGroup env g ip d r).1 = 1) ∧
    (∀ (env : SGEnv) (g ip d r name : String),
      (∀ k, env.callRes k = .err name) → name ≠ duplicateErrName →
      (addIPToSecurityGroup env g ip d r).2 = .rethrew name ∧
      sgCallCount (addIPToSecurityGroup env g ip d r).1 = 5) ∧
    (∀ (env : SGEnv) (g ip d : String),
      env.callRes 0 = .err notFoundErrName →
      (removeIPFromSecurityGroup env g ip d).2 = .returned ∧
      sgCallCount (removeIPFromSecurityGroup env g ip d).1 = 1) ∧
    (∀ (env : SGEnv) (g ip d name : String),
      (∀ k, env.callRes k = .err name) → name ≠ notFoundErrName →
      (removeIPFromSecurityGroup env g ip d).2 = .returned ∧
      sgCallCount (removeIPFromSecurityGroup env g ip d).1 = 5) := by
  refine ⟨?_, ?_, ?_, ?_⟩
  · intro env g ip d r h
    have hstep : sgGrantStep env g (normalizeCidr ip) d r 0 (4 == 0) =
        ([.sgCall g (normalizeCidr ip) d], .done .returned) := by
      simp [sgGrantStep, h]
    have he : addIPToSecurityGroup env g ip d r =
        ([.sgCall g (normalizeCidr ip) d], .returned) := by
      show runLoop (sgGrantStep env g (normalizeCidr ip) d r) .returned 0 (4 + 1) = _
      rw [runLoop_succ_done hstep]
    rw [he]
    exact ⟨rfl, rfl⟩
  · intro env g ip d r name h hname
    have hsn : ∀ a, sgGrantStep env g (normalizeCidr ip) d r a false =
        ([.sgCall g (normalizeCidr ip) d, .sleep (plainDelay a)], .next) := by
      intro a
      simp [sgGrantStep, h a, hname]
    have hsl : ∀ a, sgGrantStep env g (normalizeCidr ip) d r a true =
        ([.sgCall g (normalizeCidr ip) d], .done (.rethrew name)) := by
      intro a
      simp [sgGrantStep, h a, hname]
    have hn : ∀ a, ∃ seg,
        sgGrantStep env g (normalizeCidr ip) d r a false = (seg, .next) ∧
        seg.countP Ev.isSgCallB = 1 := fun a => ⟨_, hsn a, rfl⟩
    have hl : ∀ a, ∃ seg,
        sgGrantStep env g (normalizeCidr ip) d r a true =
          (seg, .done (.rethrew name)) ∧
        seg.countP Ev.isSgCallB = 1 := fun a => ⟨_, hsl a, rfl⟩
    obtain ⟨o, c⟩ := runLoop_retry_until_last_count
      (sgGrantStep env g (normalizeCidr ip) d r) .returned Ev.isSgCallB
      1 1 (.rethrew name) hn hl 4 0
    exact ⟨o, by simpa using c⟩
  · intro env g ip d h
    have hstep : sgRevokeStep env g ip d 0 (4 == 0) =
        ([.sgCall g ip d], .done .returned) := by
      simp [sgRevokeStep, h]
    have he : removeIPFromSecurityGroup env g ip d =
        ([.sgCall g ip d], .returned) := by
      show runLoop (sgRevokeStep env g ip d) .returned 0 (4 + 1) = _
      rw [runLoop_succ_done hstep]
    rw [he]
    exact ⟨rfl, rfl⟩
  · intro env g ip d name h hname
    have hsn : ∀ a, sgRevokeStep env g ip d a false =
        ([.sgCall g ip d, .sleep (plainDelay a)], .next) := by
      intro a
      simp [sgRevokeStep, h a, hname]
    have hsl : ∀ a, sgRevokeStep env g ip d a true =
        ([.sgCall g ip d], .done .returned) := by
      intro a
      simp [sgRevokeStep, h a, hname]
    have hn : ∀ a, ∃ seg, sgRevokeStep env g ip d a false = (seg, .next) ∧
        seg.countP Ev.isSgCallB = 1 := fun a => ⟨_, hsn a, rfl⟩
    have hl : ∀ a, ∃ seg,
        sgRevokeStep env g ip d a true = (seg, .done .returned) ∧
        seg.countP Ev.isSgCallB = 1 := fun a => ⟨_, hsl a, rfl⟩
    obtain ⟨o, c⟩ := runLoop_retry_until_last_count (sgRevokeStep env g ip d)
      .returned Ev.isSgCallB 1 1 .returned hn hl 4 0
    exact ⟨o, by simpa using c⟩

theorem unversioned_retry_contract_witness :
    ((addIPToSecurityGroup dupSGEnv "sg-1" "1.2.3.4" "descr" "us-east-1").2 =
       .returned ∧
     sgCallCount (addIPToSecurityGroup dupSGEnv "sg-1" "1.2.3.4" "descr"
       "us-east-1").1 = 1) ∧
    ((addIPToSecurityGroup otherErrSGEnv "sg-1" "1.2.3.4" "descr"
        "us-east-1").2 = .rethrew "RequestLimitExceeded" ∧
     sgCallCount (addIPToSecurityGroup otherErrSGEnv "sg-1" "1.2.3.4" "descr"
       "us-east-1").1 = 5) ∧
    ((removeIPFromSecurityGroup notFoundSGEnv "sg-1" "1.2.3.4/32" "descr").2 =
       .returned ∧
     sgCallCount (removeIPFromSecurityGroup notFoundSGEnv "sg-1" "1.2.3.4/32"
       "descr").1 = 1) ∧
    ((removeIPFromSecurityGroup otherErrSGEnv "sg-1" "1.2.3.4/32" "descr").2 =
       .returned ∧
     sgCallCount (removeIPFromSecurityGroup otherErrSGEnv "sg-1" "1.2.3.4/32"
       "descr").1 = 5) :=
  ⟨unversioned_retry_contract.1 dupSGEnv "sg-1" "1.2.3.4" "descr" "us-east-1" rfl,
   unversioned_retry_contract.2.1 otherErrSGEnv "sg-1" "1.2.3.4" "descr"
     "us-east-1" "RequestLimitExceeded" (fun _ => rfl) (by decide),
   unversioned_retry_contract.2.2.1 notFoundSGEnv "sg-1" "1.2.3.4/32" "descr" rfl,
   unversioned_retry_contract.2.2.2 otherErrSGEnv "sg-1" "1.2.3.4/32" "descr"
     "RequestLimitExceeded" (fun _ => rfl) (by decide)⟩

/-! ### Conflict retry and idempotence -/

/-- C1: starting from an entry set that does not contain the normalized
entry, if the conditional write is rejected with the stale-token error on
attempts 1..3 (indices 0..2) and succeeds on attempt 4 (index 3), then
`addIPToIPSet` returns success after 4 read and 4 write attempts, and the
finally written entry set is exactly the prior entries with the new
normalized entry appended — which therefore occurs exactly once. -/
theorem conflict_retry_grant
    (env : IPSetEnv) (p : IPSetParams) (ip : String) (s : List String)
    (t : Nat → Nat)
    (hr : ∀ k, env.readRes k = .ok (s, t k))
    (hm : normalizeCidr ip ∉ s)
    (hw3 : ∀ k < 3, env.writeRes k = .err lockErrName)
    (hw4 : env.writeRes 3 = .ok ()) :
    (addIPToIPSet env p ip).2 = .returned ∧
    finalWrite (addIPToIPSet env p ip).1 = some (s ++ [normalizeCidr ip]) ∧
    readCount (addIPToIPSet env p ip).1 = 4 ∧
    writeCount (addIPToIPSet env p ip).1 = 4 ∧
    (s ++ [normalizeCidr ip]).count (normalizeCidr ip) = 1 := by
  have hstep0 : grantStep env p (normalizeCidr ip) 0 (9 == 0) =
      ([.readOk s (t 0), .writeIssued (s ++ [normalizeCidr ip]) (t 0),
        .sleep (jitteredDelay env 0)], .next) := by
    simp [grantStep, hr 0, hm, hw3 0 (by norm_num)]
  have hstep1 : grantStep env p (normalizeCidr ip) 1 (8 == 0) =
      ([.readOk s (t 1), .writeIssued (s ++ [normalizeCidr ip]) (t 1),
        .sleep (jitteredDelay env 1)], .next) := by
    simp [grantStep, hr 1, hm, hw3 1 (by norm_num)]
  have hstep2 : grantStep env p (normalizeCidr ip) 2 (7 == 0) =
      ([.readOk s (t 2), .writeIssued (s ++ [normalizeCidr ip]) (t 2),
        .sleep (jitteredDelay env 2)], .next) := by
    simp [grantStep, hr 2, hm, hw3 2 (by norm_num)]
  have hstep3 : grantStep env p (normalizeCidr ip) 3 (6 == 0) =
      ([.readOk s (t 3), .writeIssued (s ++ [normalizeCidr ip]) (t 3),
        .save "runner-ip" (normalizeCidr ip), .save "ipset-id" p.id,
        .save "ipset-name" p.name, .save "ipset-scope" p.scope,
        .save "aws-region" p.region], .done .returned) := by
    simp [grantStep, hr 3, hm, hw4]
  have hrun : addIPToIPSet env p ip =
      ([.readOk s (t 0), .writeIssued (s ++ [normalizeCidr ip]) (t 0),
        .sleep (jitteredDelay env 0)] ++
       ([.readOk s (t 1), .writeIssued (s ++ [normalizeCidr ip]) (t 1),
         .sleep (jitteredDelay env 1)] ++
        ([.readOk s (t 2), .writeIssued (s ++ [normalizeCidr ip]) (t 2),
          .sleep (jitteredDelay env 2)] ++
         [.readOk s (t 3), .writeIssued (s ++ [normalizeCidr ip]) (t 3),
          .save "runner-ip" (normalizeCidr ip), .save "ipset-id" p.id,
          .save "ipset-name" p.name, .save "ipset-scope" p.scope,
          .save "aws-region" p.region])), .returned) := by
    show runLoop (grantStep env p (normalizeCidr ip)) .lockExhausted 0 (9 + 1) = _
    rw [runLoop_succ_next hstep0]
    rw [show (9 : Nat) = 8 + 1 from rfl, runLoop_succ_next hstep1]
    rw [show (8 : Nat) = 7 + 1 from rfl, runLoop_succ_next hstep2]
    rw [show (7 : Nat) = 6 + 1 from rfl, runLoop_succ_done hstep3]
  rw [hrun]
  refine ⟨rfl, ?_, rfl, rfl, ?_⟩
  · rfl
  · rw [List.count_append]
    rw [List.count_eq_zero.2 hm]
    simp

theorem conflict_retry_grant_witness :
    (addIPToIPSet conflictEnv demoParams "203.0.113.5").2 = .returned ∧
    finalWrite (addIPToIPSet conflictEnv demoParams "203.0.113.5").1 =
      some (([] : List String) ++ ["203.0.113.5/32"]) ∧
    readCount (addIPToIPSet conflictEnv demoParams "203.0.113.5").1 = 4 ∧
    writeCount (addIPToIPSet conflictEnv demoParams "203.0.113.5").1 = 4 ∧
    (([] : List String) ++ ["203.0.113.5/32"]).count "203.0.113.5/32" = 1 :=
  conflict_retry_grant conflictEnv demoParams "203.0.113.5" [] (fun k => k)
    (fun _ => rfl) (List.not_mem_nil _)
    (fun k hk => by simp [conflictEnv, hk]) (by decide)

/-- C6: idempotent no-ops on the versioned path.  When the read entry set
already contains the normalized entry, `addIPToIPSet` returns success
without issuing any conditional write; a first grant from a state without
the entry writes exactly the old set plus the entry, and a second grant
reading that state issues no write, so the entry occurs exactly once.
When the read entry set does not contain the entry,
`removeIPFromIPSet` returns success without issuing any write. -/
theorem idempotent_noops :
    (∀ (env : IPSetEnv) (p : IPSetParams) (ip : String) (s : List String)
        (tok : Nat),
      env.readRes 0 = .ok (s, tok) → normalizeCidr ip ∈ s →
      (addIPToIPSet env p ip).2 = .returned ∧
      writeCount (addIPToIPSet env p ip).1 = 0) ∧
    (∀ (env₁ env₂ : IPSetEnv) (p : IPSetParams) (ip : String)
        (s : List String) (tok₁ tok₂ : Nat),
      env₁.readRes 0 = .ok (s, tok₁) → normalizeCidr ip ∉ s →
      env₁.writeRes 0 = .ok () →
      env₂.readRes 0 = .ok (s ++ [normalizeCidr ip], tok₂) →
      finalWrite (addIPToIPSet env₁ p ip).1 = some (s ++ [normalizeCidr ip]) ∧
      (addIPToIPSet env₁ p ip).2 = .returned ∧
      (addIPToIPSet env₂ p ip).2 = .returned ∧
      writeCount (addIPToIPSet env₂ p ip).1 = 0 ∧
      (s ++ [normalizeCidr ip]).count (normalizeCidr ip) = 1) ∧
    (∀ (env : IPSetEnv) (p : IPSetParams) (ip : String) (s : List String)
        (tok : Nat),
      env.readRes 0 = .ok (s, tok) → ip ∉ s →
      (removeIPFromIPSet env p ip).2 = .returned ∧
      writeCount (removeIPFromIPSet env p ip).1 = 0) := by
  refine ⟨?_, ?_, ?_⟩
  · intro env p ip s tok hr hm
    have hstep : grantStep env p (normalizeCidr ip) 0 (9 == 0) =
        ([.readOk s tok], .done .returned) := by
      simp [grantStep, hr, hm]
    have he : addIPToIPSet env p ip = ([.readOk s tok], .returned) := by
      show runLoop (grantStep env p (normalizeCidr ip)) .lockExhausted 0 (9 + 1) = _
      rw [runLoop_succ_done hstep]
    rw [he]
    exact ⟨rfl, rfl⟩
  · intro env₁ env₂ p ip s tok₁ tok₂ hr₁ hm hw hr₂
    have hstep₁ : grantStep env₁ p (normalizeCidr ip) 0 (9 == 0) =
        ([.readOk s tok₁, .writeIssued (s ++ [normalizeCidr ip]) tok₁,
          .save "runner-ip" (normalizeCidr ip), .save "ipset-id" p.id,
          .save "ipset-name" p.name, .save "ipset-scope" p.scope,
          .save "aws-region" p.region], .done .returned) := by
      simp [grantStep, hr₁, hm, hw]
    have he₁ : addIPToIPSet env₁ p ip =
        ([.readOk s tok₁, .writeIssued (s ++ [normalizeCidr ip]) tok₁,
          .save "runner-ip" (normalizeCidr ip), .save "ipset-id" p.id,
          .save "ipset-name" p.name, .save "ipset-scope" p.scope,
          .save "aws-region" p.region], .returned) := by
      show runLoop (grantStep env₁ p (normalizeCidr ip)) .lockExhausted 0 (9 + 1) = _
      rw [runLoop_succ_done hstep₁]
    have hstep₂ : grantStep env₂ p (normalizeCidr ip) 0 (9 == 0) =
        ([.readOk (s ++ [normalizeCidr ip]) tok₂], .done .returned) := by
      simp [grantStep, hr₂]
    have he₂ : addIPToIPSet env₂ p ip =
        ([.readOk (s ++ [normalizeCidr ip]) tok₂], .returned) := by
      show runLoop (grantStep env₂ p (normalizeCidr ip)) .lockExhausted 0 (9 + 1) = _
      rw [runLoop_succ_done hstep₂]
    rw [he₁, he₂]
    refine ⟨rfl, rfl, rfl, rfl, ?_⟩
    rw [List.count_append]
    rw [List.count_eq_zero.2 hm]
    simp
  · intro env p ip s tok hr hm
    have hstep : removeStep env ip 0 (9 == 0) =
        ([.readOk s tok], .done .returned) := by
      simp [removeStep, hr, hm]
    have he : removeIPFromIPSet env p ip = ([.readOk s tok], .returned) := by
      show runLoop (removeStep env ip) .returned 0 (9 + 1) = _
      rw [runLoop_succ_done hstep]
    rw [he]
    exact ⟨rfl, rfl⟩

theorem idempotent_noops_witness :
    ((addIPToIPSet presentEnv demoParams "203.0.113.5").2 = .returned ∧
     writeCount (addIPToIPSet presentEnv demoParams "203.0.113.5").1 = 0) ∧
    (finalWrite (addIPToIPSet freshEnv demoParams "203.0.113.5").1 =
       some (([] : List String) ++ ["203.0.113.5/32"]) ∧
     (addIPToIPSet freshEnv demoParams "203.0.113.5").2 = .returned ∧
     (addIPToIPSet presentEnv demoParams "203.0.113.5").2 = .returned ∧
     writeCount (addIPToIPSet presentEnv demoParams "203.0.113.5").1 = 0 ∧
     (([] : List String) ++ ["203.0.113.5/32"]).count "203.0.113.5/32" = 1) ∧
    ((removeIPFromIPSet freshEnv demoParams "203.0.113.5/32").2 = .returned ∧
     writeCount (removeIPFromIPSet freshEnv demoParams "203.0.113.5/32").1 = 0) :=
  ⟨idempotent_noops.1 presentEnv demoParams "203.0.113.5"
     ["203.0.113.5/32"] 0 rfl (by decide),
   idempotent_noops.2.1 freshEnv presentEnv demoParams "203.0.113.5" [] 0 0
     rfl (List.not_mem_nil _) rfl (by decide),
   idempotent_noops.2.2 freshEnv demoParams "203.0.113.5/32" [] 0
     rfl (List.not_mem_nil _)⟩

/-! ### CIDR normalization and grant outputs -/

lemma grant_writes_end_with_entry (env : IPSetEnv) (p : IPSetParams)
    (ip : String) :
    ∀ es tok, Ev.writeIssued es tok ∈ (addIPToIPSet env p ip).1 →
      es.getLast? = some (normalizeCidr ip) := by
  have h := runLoop_mem (grantStep env p (normalizeCidr ip)) .lockExhausted
    (fun e => ∀ es tok, e = Ev.writeIssued es tok →
      es.getLast? = some (normalizeCidr ip)) ?_ 10 0
  · intro es tok hmem
    exact h (Ev.writeIssued es tok) hmem es tok rfl
  · intro a b e he es tok heq
    subst heq
    rcases grantStep_shape env p (normalizeCidr ip) a b with
      ⟨cs, tok', _, h'⟩ | ⟨cs, tok', h'⟩ | ⟨cs, tok', h'⟩ | ⟨cs, tok', name, h'⟩ |
      h' | ⟨name, h'⟩ <;>
    rw [h'] at he <;>
    simp at he <;>
    (try (rw [he.1]; exact List.getLast?_concat _))

lemma sg_calls_carry_entry (env : SGEnv) (g ip d r : String) :
    ∀ g' cidr d', Ev.sgCall g' cidr d' ∈ (addIPToSecurityGroup env g ip d r).1 →
      cidr = normalizeCidr ip := by
  have h := runLoop_mem (sgGrantStep env g (normalizeCidr ip) d r) .returned
    (fun e => ∀ g' cidr d', e = Ev.sgCall g' cidr d' →
      cidr = normalizeCidr ip) ?_ 5 0
  · intro g' cidr d' hmem
    exact h (Ev.sgCall g' cidr d') hmem g' cidr d' rfl
  · intro a b e he g' cidr d' heq
    subst heq
    rcases sgGrantStep_shape env g (normalizeCidr ip) d r a b with
      h' | h' | ⟨name, h'⟩ | h' <;>
    rw [h'] at he <;>
    simp at he <;>
    exact he.2.1

/-- C8: CIDR normalization.  An input without a '/' character is stored
with "/32" appended; an input that already has one is stored unchanged.
Every conditional write issued by the IPSet grant appends exactly the
normalized form, and every ingress call issued by the security-group
grant carries exactly the normalized form. -/
theorem cidr_normalization (ip : String) :
    ('/' ∉ ip.data → normalizeCidr ip = ip ++ "/32") ∧
    ('/' ∈ ip.data → normalizeCidr ip = ip) ∧
    (∀ (env : IPSetEnv) (p : IPSetParams) (es : List String) (tok : Nat),
      Ev.writeIssued es tok ∈ (addIPToIPSet env p ip).1 →
      es.getLast? = some (normalizeCidr ip)) ∧
    (∀ (env : SGEnv) (g d r g' cidr d' : String),
      Ev.sgCall g' cidr d' ∈ (addIPToSecurityGroup env g ip d r).1 →
      cidr = normalizeCidr ip) := by
  refine ⟨?_, ?_, ?_, ?_⟩
  · intro h
    simp [normalizeCidr, h]
  · intro h
    simp [normalizeCidr, h]
  · intro env p es tok hmem
    exact grant_writes_end_with_entry env p ip es tok hmem
  · intro env g d r g' cidr d' hmem
    exact sg_calls_carry_entry env g ip d r g' cidr d' hmem

theorem cidr_normalization_witness :
    normalizeCidr "203.0.113.5" = "203.0.113.5" ++ "/32" ∧
    normalizeCidr "203.0.113.0/24" = "203.0.113.0/24" ∧
    (["203.0.113.5/32"] : List String).getLast? =
      some (normalizeCidr "203.0.113.5") ∧
    "203.0.113.5/32" = normalizeCidr "203.0.113.5" :=
  ⟨(cidr_normalization "203.0.113.5").1 (by decide),
   (cidr_normalization "203.0.113.0/24").2.1 (by decide),
   (cidr_normalization "203.0.113.5").2.2.1 freshEnv demoParams
     ["203.0.113.5/32"] 0 (by decide),
   (cidr_normalization "203.0.113.5").2.2.2 okSGEnv "sg-1" "descr" "us-east-1"
     "sg-1" "203.0.113.5/32" "descr" (by decide)⟩

/-- C9 counterexample: the claim says every success path of grant —
including the idempotent already-present and duplicate-rule paths —
exposes the finalized CIDR and the resource identifiers as outputs; but
on the already-present path of `addIPToIPSet` and the duplicate-rule
path of `addIPToSecurityGroup` the call returns success while issuing
zero `core.saveState` calls. -/
theorem grant_outputs_cex :
    (addIPToIPSet presentEnv demoParams "203.0.113.5").2 = .returned ∧
    saveCount (addIPToIPSet presentEnv demoParams "203.0.113.5").1 = 0 ∧
    (addIPToSecurityGroup dupSGEnv "sg-1" "203.0.113.5" "descr"
      "us-east-1").2 = .returned ∧
    saveCount (addIPToSecurityGroup dupSGEnv "sg-1" "203.0.113.5" "descr"
      "us-east-1").1 = 0 := by
  decide

/-- C9 (amended): on the success path that actually performs the
mutation, each grant exposes the finalized CIDR form and the resource
identifiers via `core.saveState` — `runner-ip`/`ipset-id`/`ipset-name`/
`ipset-scope`/`aws-region` for the IPSet grant and
`sg-runner-ip`/`sg-group-id`/`sg-description`/`sg-aws-region` for the
security-group grant; the idempotent already-present and duplicate-rule
success paths return without exposing them. -/
theorem grant_outputs_on_write
    (env : IPSetEnv) (p : IPSetParams) (ip : String) (s : List String)
    (tok : Nat) (envSG : SGEnv) (g d r : String)
    (hr : env.readRes 0 = .ok (s, tok))
    (hm : normalizeCidr ip ∉ s)
    (hw : env.writeRes 0 = .ok ())
    (hc : envSG.callRes 0 = .ok ()) :
    ((addIPToIPSet env p ip).2 = .returned ∧
     Ev.save "runner-ip" (normalizeCidr ip) ∈ (addIPToIPSet env p ip).1 ∧
     Ev.save "ipset-id" p.id ∈ (addIPToIPSet env p ip).1 ∧
     Ev.save "ipset-name" p.name ∈ (addIPToIPSet env p ip).1 ∧
     Ev.save "ipset-scope" p.scope ∈ (addIPToIPSet env p ip).1 ∧
     Ev.save "aws-region" p.region ∈ (addIPToIPSet env p ip).1) ∧
    ((addIPToSecurityGroup envSG g ip d r).2 = .returned ∧
     Ev.save "sg-runner-ip" (normalizeCidr ip) ∈
       (addIPToSecurityGroup envSG g ip d r).1 ∧
     Ev.save "sg-group-id" g ∈ (addIPToSecurityGroup envSG g ip d r).1 ∧
     Ev.save "sg-description" d ∈ (addIPToSecurityGroup envSG g ip d r).1 ∧
     Ev.save "sg-aws-region" r ∈ (addIPToSecurityGroup envSG g ip d r).1) := by
  have hstep : grantStep env p (normalizeCidr ip) 0 (9 == 0) =
      ([.readOk s tok, .writeIssued (s ++ [normalizeCidr ip]) tok,
        .save "runner-ip" (normalizeCidr ip), .save "ipset-id" p.id,
        .save "ipset-name" p.name, .save "ipset-scope" p.scope,
        .save "aws-region" p.region], .done .returned) := by
    simp [grantStep, hr, hm, hw]
  have he : addIPToIPSet env p ip =
      ([.readOk s tok, .writeIssued (s ++ [normalizeCidr ip]) tok,
        .save "runner-ip" (normalizeCidr ip), .save "ipset-id" p.id,
        .save "ipset-name" p.name, .save "ipset-scope" p.scope,
        .save "aws-region" p.region], .returned) := by
    show runLoop (grantStep env p (normalizeCidr ip)) .lockExhausted 0 (9 + 1) = _
    rw [runLoop_succ_done hstep]
  have hstepSG : sgGrantStep envSG g (normalizeCidr ip) d r 0 (4 == 0) =
      ([.sgCall g (normalizeCidr ip) d,
        .save "sg-runner-ip" (normalizeCidr ip), .save "sg-group-id" g,
        .save "sg-description" d, .save "sg-aws-region" r],
       .done .returned) := by
    simp [sgGrantStep, hc]
  have heSG : addIPToSecurityGroup envSG g ip d r =
      ([.sgCall g (normalizeCidr ip) d,
        .save "sg-runner-ip" (normalizeCidr ip), .save "sg-group-id" g,
        .save "sg-description" d, .save "sg-aws-region" r], .returned) := by
    show runLoop (sgGrantStep envSG g (normalizeCidr ip) d r) .returned 0 (4 + 1) = _
    rw [runLoop_succ_done hstepSG]
  rw [he, heSG]
  refine ⟨⟨rfl, ?_, ?_, ?_, ?_, ?_⟩, ⟨rfl, ?_, ?_, ?_, ?_⟩⟩ <;> simp

theorem grant_outputs_on_write_witness :
    ((addIPToIPSet freshEnv demoParams "203.0.113.5").2 = .returned ∧
     Ev.save "runner-ip" (normalizeCidr "203.0.113.5") ∈
       (addIPToIPSet freshEnv demoParams "203.0.113.5").1 ∧
     Ev.save "ipset-id" demoParams.id ∈
       (addIPToIPSet freshEnv demoParams "203.0.113.5").1 ∧
     Ev.save "ipset-name" demoParams.name ∈
       (addIPToIPSet freshEnv demoParams "203.0.113.5").1 ∧
     Ev.save "ipset-scope" demoParams.scope ∈
       (addIPToIPSet freshEnv demoParams "203.0.113.5").1 ∧
     Ev.save "aws-region" demoParams.region ∈
       (addIPToIPSet freshEnv demoParams "203.0.113.5").1) ∧
    ((addIPToSecurityGroup okSGEnv "sg-1" "203.0.113.5" "descr"
        "us-east-1").2 = .returned ∧
     Ev.save "sg-runner-ip" (normalizeCidr "203.0.113.5") ∈
       (addIPToSecurityGroup okSGEnv "sg-1" "203.0.113.5" "descr"
         "us-east-1").1 ∧
     Ev.save "sg-group-id" "sg-1" ∈
       (addIPToSecurityGroup okSGEnv "sg-1" "203.0.113.5" "descr"
         "us-east-1").1 ∧
     Ev.save "sg-description" "descr" ∈
       (addIPToSecurityGroup okSGEnv "sg-1" "203.0.113.5" "descr"
         "us-east-1").1 ∧
     Ev.save "sg-aws-region" "us-east-1" ∈
       (addIPToSecurityGroup okSGEnv "sg-1" "203.0.113.5" "descr"
         "us-east-1").1) :=
  grant_outputs_on_write freshEnv demoParams "203.0.113.5" [] 0
    okSGEnv "sg-1" "descr" "us-east-1"
    rfl (List.not_mem_nil _) rfl rfl

end AwsWafTempAccess
